import Mathlib

/-!
Shallow embedding of the hive ClusterDeployment controller
(src/pkg/controller/clusterdeployment/clusterdeployment_controller.go).

The backing resource store is modelled as explicit association lists keyed by
(namespace, name).  The Reconcile entry point and its helpers become pure
functions from a store (plus the triggering request and the current time) to a
result, a new store, and the list of store mutations issued during the cycle.
Go machine times (metav1.Time / time.Duration) are modelled as mathematical
integers counting nanoseconds; the metav1.Time zero value is the integer 0.
-/

namespace Hive

/-! ## Fixed configuration constants (lines 49-62 of the source) -/

def serviceAccountName : String := "cluster-installer"

def roleName : String := "cluster-installer"

def roleBindingName : String := "cluster-installer"

/-- Annotation key `hive.openshift.io/delete-after` (source line 61). -/
def deleteAfterAnnot : String := "hive.openshift.io/delete-after"

/-- Modelled from the spec: the deprovision deletion-guard token
`hivev1.FinalizerDeprovision` is declared in the hive API package, which is not
under src/.  The spec describes it as an opaque string token; its exact value
is immaterial to the claims. -/
def finalizerDeprovision : String := "hive.openshift.io/deprovision"

/-- Job condition type `kbatch.JobComplete`. -/
def jobComplete : String := "Complete"

/-- Job condition type `kbatch.JobFailed`. -/
def jobFailed : String := "Failed"

/-- Nanoseconds in one Go `time.Second`. -/
def nsPerSecond : Int := 1000000000

/-! ## Association-list maps keyed by (namespace, name) -/

/-- Object identity in the store: (namespace, name). -/
abbrev ObjectKey := String × String

/-- Lookup in an association list (models a Get against the store / a Go map
read; the store keeps keys unique, lookup returns the first binding). -/
def alookup {κ α : Type} [DecidableEq κ] (k : κ) : List (κ × α) → Option α
  | [] => none
  | (k2, v) :: t => if k2 = k then some v else alookup k t

/-- Insert-or-replace a binding (models a Create of a fresh key or an Update
of an existing one). -/
def setKV {κ α : Type} [DecidableEq κ] (k : κ) (v : α) : List (κ × α) → List (κ × α)
  | [] => [(k, v)]
  | (k2, w) :: t => if k2 = k then (k, v) :: t else (k2, w) :: setKV k v t

/-- Remove all bindings of a key (models a Delete against the store). -/
def delKV {κ α : Type} [DecidableEq κ] (k : κ) : List (κ × α) → List (κ × α)
  | [] => []
  | (k2, w) :: t => if k2 = k then delKV k t else (k2, w) :: delKV k t

/-- Boolean membership test on a list (models the existence checks the
controller performs by Get). -/
def memD {α : Type} [DecidableEq α] (x : α) : List α → Bool
  | [] => false
  | y :: t => if y = x then true else memD x t

/-! ## Data model -/

/-- Observable status of a ClusterDeployment: `Status.Installed` and
`Status.ClusterUUID` are the only status fields the controller touches. -/
structure ClusterDeploymentStatus where
  installed : Bool
  clusterUUID : String
deriving DecidableEq, Repr

/-- A ClusterDeployment resource as the controller reads it from the store. -/
structure ClusterDeployment where
  nspace : String
  name : String
  annotations : List (String × String)
  finalizers : List String
  creationTimestamp : Int
  deletionTimestamp : Option Int
  status : ClusterDeploymentStatus
deriving DecidableEq, Repr

/-- Tri-state condition value (`kapi.ConditionStatus`). -/
inductive ConditionStatus where
  | conditionTrue
  | conditionFalse
  | conditionUnknown
deriving DecidableEq, Repr

/-- One entry of a Job's `Status.Conditions` list. -/
structure JobCondition where
  typ : String
  status : ConditionStatus
deriving DecidableEq, Repr

/-- A batch Job (install or uninstall work item) as the controller observes
it.  `ownerName` records the controller owner reference. -/
structure Job where
  nspace : String
  name : String
  conditions : List JobCondition
  ownerName : Option String
deriving DecidableEq, Repr

/-- The Go zero value `kbatch.Job{}`: `existingJob` keeps this value when the
Get at source line 194 reports not-found. -/
def zeroJob : Job := { nspace := "", name := "", conditions := [], ownerName := none }

/-- A ConfigMap: string data keyed by file name. -/
structure ConfigMap where
  data : List (String × String)
deriving DecidableEq, Repr

/-- The external resource store, one association list per kind the controller
touches.  Service accounts, roles and role bindings are tracked by key only:
the controller never reads their contents back. -/
structure Store where
  clusterDeployments : List (ObjectKey × ClusterDeployment)
  jobs : List (ObjectKey × Job)
  configMaps : List (ObjectKey × ConfigMap)
  serviceAccounts : List ObjectKey
  roles : List ObjectKey
  roleBindings : List ObjectKey
deriving DecidableEq, Repr

/-- Store after a Create/Update of a job. -/
def withJob (s : Store) (k : ObjectKey) (j : Job) : Store :=
  { s with jobs := setKV k j s.jobs }

/-- Store after an Update of a cluster deployment. -/
def withCD (s : Store) (k : ObjectKey) (cd : ClusterDeployment) : Store :=
  { s with clusterDeployments := setKV k cd s.clusterDeployments }

/-- Store after a Delete of a cluster deployment. -/
def withoutCD (s : Store) (k : ObjectKey) : Store :=
  { s with clusterDeployments := delKV k s.clusterDeployments }

/-- One mutating call issued against the store during a cycle. -/
inductive Mutation where
  | createServiceAccount (k : ObjectKey)
  | createRole (k : ObjectKey)
  | createRoleBinding (k : ObjectKey)
  | createJob (k : ObjectKey)
  | updateClusterDeployment (k : ObjectKey) (cd : ClusterDeployment)
  | deleteClusterDeployment (k : ObjectKey)
deriving DecidableEq, Repr

/-- The errors a cycle can surface in this model (the deterministic store
never fails by itself, so only the data-dependent errors of the source
remain). -/
inductive RError where
  | parseDurationError (s : String)
  | metadataLookupError
  | metadataJsonError
  | metadataFieldError
deriving DecidableEq, Repr

/-- The `reconcile.Result` the cycle returns. -/
structure ReconcileResult where
  requeue : Bool
  requeueAfter : Int
deriving DecidableEq, Repr

/-- Everything one Reconcile invocation produces: the returned result and
error, the store it leaves behind, and the mutations it issued in order. -/
structure ReconcileOutput where
  result : ReconcileResult
  error : Option RError
  store : Store
  muts : List Mutation
deriving DecidableEq, Repr

/-! ## Finalizer helpers (source lines 454-476)

Go's `sets.String` keeps a sorted duplicate-free list, so `AddFinalizer` and
`DeleteFinalizer` rebuild the finalizer list as a sorted set. -/

/-- Insert a string into a sorted duplicate-free list (models
`sets.String.Insert` followed by `List()`). -/
def setInsert (x : String) : List String → List String
  | [] => [x]
  | y :: t => if x = y then y :: t else if x < y then x :: y :: t else y :: setInsert x t

/-- Rebuild a list as a sorted duplicate-free set (models
`sets.NewString(...).List()`). -/
def stringSetList (l : List String) : List String := l.foldr setInsert []

/-- HasFinalizer (source lines 455-462): linear scan for the token. -/
def hasFinalizer (cd : ClusterDeployment) (f : String) : Bool := memD f cd.finalizers

/-- AddFinalizer (source lines 465-469). -/
def addFinalizerCD (cd : ClusterDeployment) (f : String) : ClusterDeployment :=
  { cd with finalizers := stringSetList (f :: cd.finalizers) }

/-- DeleteFinalizer (source lines 472-476). -/
def deleteFinalizerCD (cd : ClusterDeployment) (f : String) : ClusterDeployment :=
  { cd with finalizers := stringSetList (cd.finalizers.filter (fun x => x != f)) }

/-! ## Duration strings

Modelled from the Go standard library `time.ParseDuration`, restricted to the
forms the controller's annotation contract uses: one or more unsigned integer
segments each followed by a unit (ns, us, ms, s, m, h).  The result is the
duration in nanoseconds; any other string fails to parse. -/

/-- Split the longest prefix of decimal digits off a character list. -/
def spanDigits : List Char → List Char × List Char
  | [] => ([], [])
  | c :: t => if c.isDigit then
      let p := spanDigits t
      (c :: p.1, p.2)
    else ([], c :: t)

/-- Value of a list of decimal digits. -/
def digitsVal (ds : List Char) : Nat := ds.foldl (fun a c => a * 10 + (c.toNat - 48)) 0

/-- Nanoseconds per duration unit, reading the unit off the front. -/
def unitMul : List Char → Option (Nat × List Char)
  | 'n' :: 's' :: r => some (1, r)
  | 'u' :: 's' :: r => some (1000, r)
  | 'm' :: 's' :: r => some (1000000, r)
  | 's' :: r => some (1000000000, r)
  | 'm' :: r => some (60000000000, r)
  | 'h' :: r => some (3600000000000, r)
  | _ => none

/-- Parse a sequence of number-unit segments; fuel bounds recursion depth. -/
def parseSegs : Nat → List Char → Option Nat
  | _, [] => some 0
  | 0, _ => none
  | fuel + 1, cs =>
    match spanDigits cs with
    | ([], _) => none
    | (ds, r1) =>
      match unitMul r1 with
      | none => none
      | some (mul, r2) =>
        match parseSegs fuel r2 with
        | none => none
        | some rest => some (digitsVal ds * mul + rest)

/-- Modelled from the Go standard library: `time.ParseDuration` on the
unsigned-integer-segment subset; nanoseconds on success. -/
def parseDuration (s : String) : Option Nat :=
  let cs := s.toList
  if cs.isEmpty then none else parseSegs cs.length cs

/-! ## JSON

Modelled from the Go standard library `encoding/json.Unmarshal` into
`map[string]interface{}`: a recursive-descent parser for the JSON subset the
metadata artifact uses (objects, arrays, strings without escapes, integer
numbers, booleans, null). -/

inductive Json where
  | obj : List (String × Json) → Json
  | arr : List Json → Json
  | str : String → Json
  | num : Int → Json
  | bool : Bool → Json
  | null : Json

/-- Drop leading JSON whitespace. -/
def skipWs : List Char → List Char
  | c :: t => if c = ' ' ∨ c = '\t' ∨ c = '\n' ∨ c = '\r' then skipWs t else c :: t
  | [] => []

/-- Read a string-literal body up to the closing quote (escapes are outside
the modelled subset and fail the parse). -/
def parseStrBody : List Char → Option (List Char × List Char)
  | [] => none
  | c :: t =>
    if c = '"' then some ([], t)
    else if c = '\\' then none
    else match parseStrBody t with
      | some (cs, r) => some (c :: cs, r)
      | none => none

mutual

/-- Parse one JSON value; fuel bounds recursion depth. -/
def parseJson : Nat → List Char → Option (Json × List Char)
  | 0, _ => none
  | fuel + 1, cs =>
    match skipWs cs with
    | [] => none
    | '"' :: t =>
      match parseStrBody t with
      | none => none
      | some (body, r) => some (Json.str (String.mk body), r)
    | '{' :: t =>
      match skipWs t with
      | '}' :: r => some (Json.obj [], r)
      | t2 =>
        match parseFields fuel t2 with
        | none => none
        | some (fs, r) => some (Json.obj fs, r)
    | '[' :: t =>
      match skipWs t with
      | ']' :: r => some (Json.arr [], r)
      | t2 =>
        match parseItems fuel t2 with
        | none => none
        | some (vs, r) => some (Json.arr vs, r)
    | 't' :: 'r' :: 'u' :: 'e' :: r => some (Json.bool true, r)
    | 'f' :: 'a' :: 'l' :: 's' :: 'e' :: r => some (Json.bool false, r)
    | 'n' :: 'u' :: 'l' :: 'l' :: r => some (Json.null, r)
    | '-' :: t =>
      match spanDigits t with
      | ([], _) => none
      | (ds, r) => some (Json.num (-(Int.ofNat (digitsVal ds))), r)
    | c :: t =>
      if c.isDigit then
        match spanDigits (c :: t) with
        | (ds, r) => some (Json.num (Int.ofNat (digitsVal ds)), r)
      else none

/-- Parse the fields of an object after the opening brace. -/
def parseFields : Nat → List Char → Option (List (String × Json) × List Char)
  | 0, _ => none
  | fuel + 1, cs =>
    match skipWs cs with
    | '"' :: t =>
      match parseStrBody t with
      | none => none
      | some (key, r1) =>
        match skipWs r1 with
        | ':' :: r2 =>
          match parseJson fuel r2 with
          | none => none
          | some (v, r3) =>
            match skipWs r3 with
            | ',' :: r4 =>
              match parseFields fuel r4 with
              | none => none
              | some (fs, r5) => some ((String.mk key, v) :: fs, r5)
            | '}' :: r4 => some ([(String.mk key, v)], r4)
            | _ => none
        | _ => none
    | _ => none

/-- Parse the items of an array after the opening bracket. -/
def parseItems : Nat → List Char → Option (List Json × List Char)
  | 0, _ => none
  | fuel + 1, cs =>
    match parseJson fuel cs with
    | none => none
    | some (v, r1) =>
      match skipWs r1 with
      | ',' :: r2 =>
        match parseItems fuel r2 with
        | none => none
        | some (vs, r3) => some (v :: vs, r3)
      | ']' :: r2 => some ([v], r2)
      | _ => none

end

/-- Modelled from the Go standard library: whole-input JSON decoding. -/
def jsonUnmarshal (s : String) : Option Json :=
  let cs := s.toList
  match parseJson (cs.length + 1) cs with
  | some (v, r) => if (skipWs r).isEmpty then some v else none
  | none => none

/-- Decoding into `map[string]interface{}` (source line 250-251): the
top-level value must be an object. -/
def unmarshalObject (s : String) : Option (List (String × Json)) :=
  match jsonUnmarshal s with
  | some (Json.obj fs) => some fs
  | _ => none

/-! ## Job conditions (source lines 435-452) -/

/-- First condition of the given type, mirroring the range loop of
`getJobConditionStatus`. -/
def findCondition (condType : String) : List JobCondition → Option JobCondition
  | [] => none
  | c :: t => if c.typ = condType then some c else findCondition condType t

/-- getJobConditionStatus (source lines 437-444): status of the first
condition of the given type, ConditionFalse when none is present. -/
def getJobConditionStatus (job : Job) (condType : String) : ConditionStatus :=
  match findCondition condType job.conditions with
  | some c => c.status
  | none => ConditionStatus.conditionFalse

/-- isSuccessful (source lines 446-448). -/
def isSuccessful (job : Job) : Bool :=
  getJobConditionStatus job jobComplete == ConditionStatus.conditionTrue

/-- isFailed (source lines 450-452). -/
def isFailed (job : Job) : Bool :=
  getJobConditionStatus job jobFailed == ConditionStatus.conditionTrue

/-! ## Work item generation

The `install` package (install.GenerateInstallerJob / GenerateUninstallerJob)
is not under src/; only its call sites are.  Modelled from the spec: the work
item's identity is a fixed deterministic function of the owning resource's
name, in the resource's namespace; the payload is opaque to the controller. -/

/-- Modelled from the spec: deterministic install work item name. -/
def installJobName (cdName : String) : String := cdName ++ "-install"

/-- Modelled from the spec: deterministic uninstall work item name. -/
def uninstallJobName (cdName : String) : String := cdName ++ "-uninstall"

/-- Modelled from the spec: `install.GenerateInstallerJob` produces a fresh
work item deterministically named from the resource. -/
def generateInstallerJob (cd : ClusterDeployment) : Job :=
  { nspace := cd.nspace, name := installJobName cd.name, conditions := [], ownerName := none }

/-- Modelled from the spec: `install.GenerateUninstallerJob` produces a fresh
uninstall work item deterministically named from the resource. -/
def generateUninstallerJob (cd : ClusterDeployment) : Job :=
  { nspace := cd.nspace, name := uninstallJobName cd.name, conditions := [], ownerName := none }

/-- controllerutil.SetControllerReference: attach the owner link. -/
def setControllerReference (cd : ClusterDeployment) (job : Job) : Job :=
  { job with ownerName := some cd.name }

/-! ## Access provisioning (setupClusterInstallServiceAccount, lines 338-433)

For the service account, role and role binding independently: look up the
fixed name in the namespace, create it when absent.  The store and mutation
list are computed by separate functions so that field preservation is
definitional. -/

/-- Store left behind by setupClusterInstallServiceAccount. -/
def setupStore (s : Store) (ns : String) : Store :=
  { s with
    serviceAccounts :=
      if memD (ns, serviceAccountName) s.serviceAccounts then s.serviceAccounts
      else (ns, serviceAccountName) :: s.serviceAccounts,
    roles :=
      if memD (ns, roleName) s.roles then s.roles
      else (ns, roleName) :: s.roles,
    roleBindings :=
      if memD (ns, roleBindingName) s.roleBindings then s.roleBindings
      else (ns, roleBindingName) :: s.roleBindings }

/-- Mutations issued by setupClusterInstallServiceAccount, in order. -/
def setupMuts (s : Store) (ns : String) : List Mutation :=
  (if memD (ns, serviceAccountName) s.serviceAccounts then []
   else [Mutation.createServiceAccount (ns, serviceAccountName)]) ++
  (if memD (ns, roleName) s.roles then []
   else [Mutation.createRole (ns, roleName)]) ++
  (if memD (ns, roleBindingName) s.roleBindings then []
   else [Mutation.createRoleBinding (ns, roleBindingName)])

/-! ## Status synthesis (updateClusterDeploymentStatus, lines 229-283) -/

/-- Name of the companion metadata ConfigMap (source line 241). -/
def metadataConfigMapName (cdName : String) : String := cdName ++ "-metadata"

/-- The metadata lookup of source lines 240-266: fetch the
`name-metadata` ConfigMap, decode its `metadata.json` payload and extract
`aws.identifier.tectonicClusterID` as a string; each structural mismatch is
the corresponding fatal error of the source. -/
def lookupClusterUUID (cms : List (ObjectKey × ConfigMap)) (cd : ClusterDeployment) :
    Except RError String :=
  match alookup (cd.nspace, metadataConfigMapName cd.name) cms with
  | none => Except.error RError.metadataLookupError
  | some cm =>
    match unmarshalObject ((alookup "metadata.json" cm.data).getD "") with
    | none => Except.error RError.metadataJsonError
    | some objMap =>
      match alookup "aws" objMap with
      | some (Json.obj aws) =>
        match alookup "identifier" aws with
        | some (Json.obj identifier) =>
          match alookup "tectonicClusterID" identifier with
          | some (Json.str cid) => Except.ok cid
          | _ => Except.error RError.metadataFieldError
        | _ => Except.error RError.metadataFieldError
      | _ => Except.error RError.metadataFieldError

/-- The status computation of updateClusterDeploymentStatus: set `installed`
from the observed job when one was passed (the caller always passes one, see
source line 214), then resolve the cluster UUID when installed and unset. -/
def computeNewStatus (cms : List (ObjectKey × ConfigMap)) (cd : ClusterDeployment)
    (job : Option Job) : Except RError ClusterDeploymentStatus :=
  let st1 :=
    match job with
    | some j => { cd.status with installed := isSuccessful j }
    | none => cd.status
  if st1.installed then
    if st1.clusterUUID = "" then
      match lookupClusterUUID cms cd with
      | Except.error e => Except.error e
      | Except.ok cid => Except.ok { st1 with clusterUUID := cid }
    else Except.ok st1
  else Except.ok st1

/-- updateClusterDeploymentStatus (source lines 229-283): compute the new
status and persist the resource only when the status changed structurally. -/
def updateClusterDeploymentStatus (s : Store) (req : ObjectKey) (cd : ClusterDeployment)
    (job : Option Job) : Option RError × Store × List Mutation :=
  match computeNewStatus s.configMaps cd job with
  | Except.error e => (some e, s, [])
  | Except.ok st2 =>
    if st2 = cd.status then (none, s, [])
    else
      (none, withCD s req { cd with status := st2 },
       [Mutation.updateClusterDeployment req { cd with status := st2 }])

/-- The tail of Reconcile after the job synchronization (source lines
214-226): run the status update, then return, attaching the remembered
requeue delay when one was computed. -/
def finishReconcile (s : Store) (muts : List Mutation) (req : ObjectKey)
    (cd : ClusterDeployment) (job : Option Job) (requeueAfter : Int) : ReconcileOutput :=
  match updateClusterDeploymentStatus s req cd job with
  | (some e, s2, m2) =>
    { result := ⟨false, 0⟩, error := some e, store := s2, muts := muts ++ m2 }
  | (none, s2, m2) =>
    if requeueAfter ≠ 0 then
      { result := ⟨true, requeueAfter⟩, error := none, store := s2, muts := muts ++ m2 }
    else
      { result := ⟨false, 0⟩, error := none, store := s2, muts := muts ++ m2 }

/-! ## Deletion lifecycle (syncDeletedClusterDeployment, lines 285-334) -/

/-- syncDeletedClusterDeployment: ensure the uninstall work item and release
the deletion guard once it reports Complete.  The generated uninstall work
item's identity is (cd.nspace, uninstallJobName cd.name), so the existence
Get of source line 301 looks up exactly that key. -/
def syncDeletedClusterDeployment (s : Store) (muts : List Mutation) (req : ObjectKey)
    (cd : ClusterDeployment) : ReconcileOutput :=
  match alookup (cd.nspace, uninstallJobName cd.name) s.jobs with
  | none =>
    { result := ⟨false, 0⟩, error := none,
      store := withJob s (cd.nspace, uninstallJobName cd.name)
        (setControllerReference cd (generateUninstallerJob cd)),
      muts := muts ++ [Mutation.createJob (cd.nspace, uninstallJobName cd.name)] }
  | some existingJob =>
    if isSuccessful existingJob then
      { result := ⟨false, 0⟩, error := none,
        store := withCD s req (deleteFinalizerCD cd finalizerDeprovision),
        muts := muts ++ [Mutation.updateClusterDeployment req
          (deleteFinalizerCD cd finalizerDeprovision)] }
    else
      { result := ⟨false, 0⟩, error := none, store := s, muts := muts }

/-! ## The active path and the Reconcile entry point (lines 119-227) -/

/-- The active path after the expiry evaluation (source lines 178-226): add
the deletion guard and terminate, or synchronize the install work item and
run the status update.  When the install job Get reports not-found, the
source passes the untouched zero Job to the status update. -/
def reconcileActive (s : Store) (muts : List Mutation) (req : ObjectKey)
    (cd : ClusterDeployment) (requeueAfter : Int) : ReconcileOutput :=
  if hasFinalizer cd finalizerDeprovision then
    match alookup (cd.nspace, installJobName cd.name) s.jobs with
    | none =>
      if cd.status.installed then
        finishReconcile s muts req cd (some zeroJob) requeueAfter
      else
        finishReconcile
          (withJob s (cd.nspace, installJobName cd.name)
            (setControllerReference cd (generateInstallerJob cd)))
          (muts ++ [Mutation.createJob (cd.nspace, installJobName cd.name)]) req cd
          (some zeroJob) requeueAfter
    | some existingJob =>
      finishReconcile s muts req cd (some existingJob) requeueAfter
  else
    { result := ⟨false, 0⟩, error := none,
      store := withCD s req (addFinalizerCD cd finalizerDeprovision),
      muts := muts ++ [Mutation.updateClusterDeployment req
        (addFinalizerCD cd finalizerDeprovision)] }

/-- Reconcile (source lines 119-227): fetch the resource, provision access,
branch on the deletion request, evaluate the expiry policy, then run the
active path. -/
def reconcile (s : Store) (req : ObjectKey) (now : Int) : ReconcileOutput :=
  match alookup req s.clusterDeployments with
  | none => { result := ⟨false, 0⟩, error := none, store := s, muts := [] }
  | some cd =>
    if cd.deletionTimestamp.isSome then
      if hasFinalizer cd finalizerDeprovision then
        syncDeletedClusterDeployment (setupStore s cd.nspace) (setupMuts s cd.nspace) req cd
      else
        { result := ⟨false, 0⟩, error := none, store := setupStore s cd.nspace,
          muts := setupMuts s cd.nspace }
    else
      match alookup deleteAfterAnnot cd.annotations with
      | none => reconcileActive (setupStore s cd.nspace) (setupMuts s cd.nspace) req cd 0
      | some deleteAfter =>
        match parseDuration deleteAfter with
        | none =>
          { result := ⟨false, 0⟩, error := some (RError.parseDurationError deleteAfter),
            store := setupStore s cd.nspace, muts := setupMuts s cd.nspace }
        | some dur =>
          if cd.creationTimestamp ≠ 0 then
            if now > cd.creationTimestamp + (dur : Int) then
              { result := ⟨false, 0⟩, error := none,
                store := withoutCD (setupStore s cd.nspace) req,
                muts := setupMuts s cd.nspace ++ [Mutation.deleteClusterDeployment req] }
            else
              reconcileActive (setupStore s cd.nspace) (setupMuts s cd.nspace) req cd
                (cd.creationTimestamp + (dur : Int) - now + 60 * nsPerSecond)
          else
            reconcileActive (setupStore s cd.nspace) (setupMuts s cd.nspace) req cd 0

/-! ## Basic lemmas about the store primitives -/

theorem cons_ne_self_list {α : Type} (x : α) (l : List α) : x :: l ≠ l := by
  intro h
  have hlen := congrArg List.length h
  simp at hlen

theorem alookup_setKV_self {κ α : Type} [DecidableEq κ] (k : κ) (v : α) (l : List (κ × α)) :
    alookup k (setKV k v l) = some v := by
  induction l with
  | nil => simp [setKV, alookup]
  | cons p t ih =>
    obtain ⟨k2, w⟩ := p
    by_cases h : k2 = k
    · simp [setKV, h, alookup]
    · simp [setKV, h, alookup, ih]

theorem alookup_delKV_self {κ α : Type} [DecidableEq κ] (k : κ) (l : List (κ × α)) :
    alookup k (delKV k l) = none := by
  induction l with
  | nil => simp [delKV, alookup]
  | cons p t ih =>
    obtain ⟨k2, w⟩ := p
    by_cases h : k2 = k
    · simp [delKV, h, ih]
    · simp [delKV, h, alookup, ih]

theorem memD_iff {α : Type} [DecidableEq α] (x : α) (l : List α) : memD x l = true ↔ x ∈ l := by
  induction l with
  | nil => simp [memD]
  | cons y t ih =>
    simp only [memD]
    by_cases h : y = x
    · subst h
      simp
    · rw [if_neg h, ih, List.mem_cons]
      constructor
      · exact Or.inr
      · rintro (h2 | h2)
        · exact absurd h2.symm h
        · exact h2

theorem mem_setInsert (y x : String) (l : List String) :
    y ∈ setInsert x l ↔ y = x ∨ y ∈ l := by
  induction l with
  | nil => simp [setInsert]
  | cons z t ih =>
    by_cases h1 : x = z
    · subst h1
      simp only [setInsert, eq_self_iff_true, if_true, List.mem_cons]
      tauto
    · by_cases h2 : x < z
      · simp only [setInsert, if_neg h1, if_pos h2, List.mem_cons]
      · simp only [setInsert, if_neg h1, if_neg h2, List.mem_cons, ih]
        tauto

theorem mem_stringSetList (y : String) (l : List String) :
    y ∈ stringSetList l ↔ y ∈ l := by
  induction l with
  | nil => simp [stringSetList]
  | cons a t ih =>
    simp only [stringSetList, List.foldr] at ih ⊢
    rw [mem_setInsert, ih, List.mem_cons]

theorem hasFinalizer_addFinalizerCD (cd : ClusterDeployment) (f : String) :
    hasFinalizer (addFinalizerCD cd f) f = true := by
  simp only [hasFinalizer, addFinalizerCD]
  rw [memD_iff, mem_stringSetList]
  exact List.mem_cons_self f cd.finalizers

theorem hasFinalizer_deleteFinalizerCD (cd : ClusterDeployment) (f : String) :
    hasFinalizer (deleteFinalizerCD cd f) f = false := by
  have h : f ∉ stringSetList (cd.finalizers.filter (fun x => x != f)) := by
    rw [mem_stringSetList]
    intro hmem
    have := (List.mem_filter.mp hmem).2
    simp at this
  simp only [hasFinalizer, deleteFinalizerCD]
  exact Bool.eq_false_iff.mpr (fun hb => h ((memD_iff f _).mp hb))

/-! ## Frame and fixpoint lemmas for the cycle pipeline -/

theorem setupStore_clusterDeployments (s : Store) (ns : String) :
    (setupStore s ns).clusterDeployments = s.clusterDeployments := rfl

theorem setupStore_jobs (s : Store) (ns : String) : (setupStore s ns).jobs = s.jobs := rfl

theorem setupStore_configMaps (s : Store) (ns : String) :
    (setupStore s ns).configMaps = s.configMaps := rfl

/-- When access provisioning leaves every provisioning field unchanged, it
issued no mutation. -/
theorem setupMuts_nil_of_fields (s : Store) (ns : String)
    (h1 : (setupStore s ns).serviceAccounts = s.serviceAccounts)
    (h2 : (setupStore s ns).roles = s.roles)
    (h3 : (setupStore s ns).roleBindings = s.roleBindings) :
    setupMuts s ns = [] := by
  simp only [setupStore] at h1 h2 h3
  by_cases c1 : memD (ns, serviceAccountName) s.serviceAccounts = true
  · by_cases c2 : memD (ns, roleName) s.roles = true
    · by_cases c3 : memD (ns, roleBindingName) s.roleBindings = true
      · simp [setupMuts, c1, c2, c3]
      · simp only [c3, if_false, if_neg] at h3
        exact absurd h3 (cons_ne_self_list _ _)
    · simp only [c2, if_false, if_neg] at h2
      exact absurd h2 (cons_ne_self_list _ _)
  · simp only [c1, if_false, if_neg] at h1
    exact absurd h1 (cons_ne_self_list _ _)

/-- A provisioned namespace makes access provisioning a no-op. -/
theorem setupStore_eq_of_provisioned (s : Store) (ns : String)
    (h1 : memD (ns, serviceAccountName) s.serviceAccounts = true)
    (h2 : memD (ns, roleName) s.roles = true)
    (h3 : memD (ns, roleBindingName) s.roleBindings = true) :
    setupStore s ns = s := by
  simp [setupStore, h1, h2, h3]

theorem setupMuts_nil_of_provisioned (s : Store) (ns : String)
    (h1 : memD (ns, serviceAccountName) s.serviceAccounts = true)
    (h2 : memD (ns, roleName) s.roles = true)
    (h3 : memD (ns, roleBindingName) s.roleBindings = true) :
    setupMuts s ns = [] := by
  simp [setupMuts, h1, h2, h3]

/-- The status update never touches the kinds other than cluster
deployments. -/
theorem updateStatus_store_frame (s : Store) (req : ObjectKey) (cd : ClusterDeployment)
    (job : Option Job) :
    ((updateClusterDeploymentStatus s req cd job).2.1).jobs = s.jobs ∧
    ((updateClusterDeploymentStatus s req cd job).2.1).serviceAccounts = s.serviceAccounts ∧
    ((updateClusterDeploymentStatus s req cd job).2.1).roles = s.roles ∧
    ((updateClusterDeploymentStatus s req cd job).2.1).roleBindings = s.roleBindings ∧
    ((updateClusterDeploymentStatus s req cd job).2.1).configMaps = s.configMaps := by
  unfold updateClusterDeploymentStatus
  split
  · exact ⟨rfl, rfl, rfl, rfl, rfl⟩
  · split
    · exact ⟨rfl, rfl, rfl, rfl, rfl⟩
    · exact ⟨rfl, rfl, rfl, rfl, rfl⟩

/-- A status update that leaves the store unchanged issued no mutation. -/
theorem updateStatus_fix (s : Store) (req : ObjectKey) (cd : ClusterDeployment)
    (job : Option Job) (hcd : alookup req s.clusterDeployments = some cd)
    (h : (updateClusterDeploymentStatus s req cd job).2.1 = s) :
    (updateClusterDeploymentStatus s req cd job).2.2 = [] := by
  cases hcs : computeNewStatus s.configMaps cd job with
  | error e => simp [updateClusterDeploymentStatus, hcs]
  | ok st2 =>
    by_cases hst : st2 = cd.status
    · simp [updateClusterDeploymentStatus, hcs, hst]
    · exfalso
      have hs : (updateClusterDeploymentStatus s req cd job).2.1
          = withCD s req { cd with status := st2 } := by
        simp [updateClusterDeploymentStatus, hcs, hst]
      rw [hs] at h
      have h2 := congrArg (fun st => alookup req st.clusterDeployments) h
      simp only [withCD, alookup_setKV_self] at h2
      rw [hcd] at h2
      have h3 : ({ cd with status := st2 } : ClusterDeployment) = cd := Option.some.inj h2
      exact hst (congrArg ClusterDeployment.status h3)

theorem finish_store_frame (s : Store) (muts : List Mutation) (req : ObjectKey)
    (cd : ClusterDeployment) (job : Option Job) (ra : Int) :
    (finishReconcile s muts req cd job ra).store = (updateClusterDeploymentStatus s req cd job).2.1 ∧
    (finishReconcile s muts req cd job ra).muts = muts ++ (updateClusterDeploymentStatus s req cd job).2.2 ∧
    (finishReconcile s muts req cd job ra).error = (updateClusterDeploymentStatus s req cd job).1 := by
  unfold finishReconcile
  split
  next e s2 m2 heq => rw [heq]; exact ⟨rfl, rfl, rfl⟩
  next s2 m2 heq =>
    rw [heq]
    split
    · exact ⟨rfl, rfl, rfl⟩
    · exact ⟨rfl, rfl, rfl⟩

theorem finish_fix (s : Store) (muts : List Mutation) (req : ObjectKey)
    (cd : ClusterDeployment) (job : Option Job) (ra : Int)
    (hcd : alookup req s.clusterDeployments = some cd)
    (h : (finishReconcile s muts req cd job ra).store = s) :
    (finishReconcile s muts req cd job ra).muts = muts := by
  obtain ⟨hs, hm, -⟩ := finish_store_frame s muts req cd job ra
  rw [hs] at h
  rw [hm, updateStatus_fix s req cd job hcd h, List.append_nil]

/-- The active path never touches the provisioning kinds. -/
theorem reconcileActive_store_frame (s : Store) (muts : List Mutation) (req : ObjectKey)
    (cd : ClusterDeployment) (ra : Int) :
    ((reconcileActive s muts req cd ra).store).serviceAccounts = s.serviceAccounts ∧
    ((reconcileActive s muts req cd ra).store).roles = s.roles ∧
    ((reconcileActive s muts req cd ra).store).roleBindings = s.roleBindings := by
  unfold reconcileActive
  by_cases hfin : hasFinalizer cd finalizerDeprovision = true
  · rw [if_pos hfin]
    cases hjk : alookup (cd.nspace, installJobName cd.name) s.jobs with
    | none =>
      by_cases hin : cd.status.installed = true
      · rw [if_pos hin]
        obtain ⟨hs, -, -⟩ := finish_store_frame s muts req cd (some zeroJob) ra
        obtain ⟨-, f1, f2, f3, -⟩ := updateStatus_store_frame s req cd (some zeroJob)
        rw [hs]
        exact ⟨f1, f2, f3⟩
      · rw [if_neg hin]
        obtain ⟨hs, -, -⟩ :=
          finish_store_frame
            (withJob s (cd.nspace, installJobName cd.name)
              (setControllerReference cd (generateInstallerJob cd)))
            (muts ++ [Mutation.createJob (cd.nspace, installJobName cd.name)]) req cd
            (some zeroJob) ra
        obtain ⟨-, f1, f2, f3, -⟩ :=
          updateStatus_store_frame
            (withJob s (cd.nspace, installJobName cd.name)
              (setControllerReference cd (generateInstallerJob cd)))
            req cd (some zeroJob)
        rw [hs]
        exact ⟨f1, f2, f3⟩
    | some existingJob =>
      obtain ⟨hs, -, -⟩ := finish_store_frame s muts req cd (some existingJob) ra
      obtain ⟨-, f1, f2, f3, -⟩ := updateStatus_store_frame s req cd (some existingJob)
      rw [hs]
      exact ⟨f1, f2, f3⟩
  · rw [if_neg hfin]
    exact ⟨rfl, rfl, rfl⟩

/-- An active path that leaves the store unchanged issued no mutation beyond
the ones it was handed. -/
theorem reconcileActive_fix (s : Store) (muts : List Mutation) (req : ObjectKey)
    (cd : ClusterDeployment) (ra : Int)
    (hcd : alookup req s.clusterDeployments = some cd)
    (h : (reconcileActive s muts req cd ra).store = s) :
    (reconcileActive s muts req cd ra).muts = muts := by
  by_cases hfin : hasFinalizer cd finalizerDeprovision = true
  · cases hjk : alookup (cd.nspace, installJobName cd.name) s.jobs with
    | none =>
      by_cases hin : cd.status.installed = true
      · simp only [reconcileActive, if_pos hfin, hjk, if_pos hin] at h ⊢
        exact finish_fix s muts req cd (some zeroJob) ra hcd h
      · exfalso
        simp only [reconcileActive, if_pos hfin, hjk, if_neg hin] at h
        obtain ⟨hs, -, -⟩ :=
          finish_store_frame
            (withJob s (cd.nspace, installJobName cd.name)
              (setControllerReference cd (generateInstallerJob cd)))
            (muts ++ [Mutation.createJob (cd.nspace, installJobName cd.name)]) req cd
            (some zeroJob) ra
        obtain ⟨f0, -, -, -, -⟩ :=
          updateStatus_store_frame
            (withJob s (cd.nspace, installJobName cd.name)
              (setControllerReference cd (generateInstallerJob cd)))
            req cd (some zeroJob)
        rw [hs] at h
        have hjobs := congrArg Store.jobs h
        rw [f0] at hjobs
        simp only [withJob] at hjobs
        have h2 := congrArg (alookup (cd.nspace, installJobName cd.name)) hjobs
        rw [alookup_setKV_self, hjk] at h2
        exact Option.noConfusion h2
    | some existingJob =>
      simp only [reconcileActive, if_pos hfin, hjk] at h ⊢
      exact finish_fix s muts req cd (some existingJob) ra hcd h
  · exfalso
    simp only [reconcileActive, if_neg hfin] at h
    have h2 := congrArg (fun st => alookup req st.clusterDeployments) h
    simp only [withCD, alookup_setKV_self] at h2
    rw [hcd] at h2
    have h3 := Option.some.inj h2
    rw [← h3, hasFinalizer_addFinalizerCD] at hfin
    exact hfin rfl

/-- The deletion path never touches the provisioning kinds. -/
theorem syncDeleted_store_frame (s : Store) (muts : List Mutation) (req : ObjectKey)
    (cd : ClusterDeployment) :
    ((syncDeletedClusterDeployment s muts req cd).store).serviceAccounts = s.serviceAccounts ∧
    ((syncDeletedClusterDeployment s muts req cd).store).roles = s.roles ∧
    ((syncDeletedClusterDeployment s muts req cd).store).roleBindings = s.roleBindings := by
  unfold syncDeletedClusterDeployment
  split
  · exact ⟨rfl, rfl, rfl⟩
  · split
    · exact ⟨rfl, rfl, rfl⟩
    · exact ⟨rfl, rfl, rfl⟩

/-- A deletion path that leaves the store unchanged issued no mutation beyond
the ones it was handed. -/
theorem syncDeleted_fix (s : Store) (muts : List Mutation) (req : ObjectKey)
    (cd : ClusterDeployment)
    (hcd : alookup req s.clusterDeployments = some cd)
    (hfin : hasFinalizer cd finalizerDeprovision = true)
    (h : (syncDeletedClusterDeployment s muts req cd).store = s) :
    (syncDeletedClusterDeployment s muts req cd).muts = muts := by
  cases hjk : alookup (cd.nspace, uninstallJobName cd.name) s.jobs with
  | none =>
    exfalso
    simp only [syncDeletedClusterDeployment, hjk] at h
    have hjobs := congrArg Store.jobs h
    simp only [withJob] at hjobs
    have h2 := congrArg (alookup (cd.nspace, uninstallJobName cd.name)) hjobs
    rw [alookup_setKV_self, hjk] at h2
    exact Option.noConfusion h2
  | some existingJob =>
    by_cases hsucc : isSuccessful existingJob = true
    · exfalso
      simp only [syncDeletedClusterDeployment, hjk, if_pos hsucc] at h
      have h2 := congrArg (fun st => alookup req st.clusterDeployments) h
      simp only [withCD, alookup_setKV_self] at h2
      rw [hcd] at h2
      have h3 := Option.some.inj h2
      rw [← h3, hasFinalizer_deleteFinalizerCD] at hfin
      exact Bool.noConfusion hfin
    · simp only [syncDeletedClusterDeployment, hjk, if_neg hsucc]

/-- Access provisioning that changes no provisioning field changes nothing. -/
theorem setupStore_eq_of_fields (s : Store) (ns : String)
    (h1 : (setupStore s ns).serviceAccounts = s.serviceAccounts)
    (h2 : (setupStore s ns).roles = s.roles)
    (h3 : (setupStore s ns).roleBindings = s.roleBindings) :
    setupStore s ns = s := by
  cases s with
  | mk cds jobs cms sas rs rbs =>
    simp only [setupStore] at h1 h2 h3 ⊢
    rw [h1, h2, h3]

/-- The active path preceded by access provisioning, at a fixpoint store,
issued no mutation at all. -/
theorem reconcileActive_setup_fix (s : Store) (req : ObjectKey) (cd : ClusterDeployment)
    (ra : Int) (hcd : alookup req s.clusterDeployments = some cd)
    (h : (reconcileActive (setupStore s cd.nspace) (setupMuts s cd.nspace) req cd ra).store = s) :
    (reconcileActive (setupStore s cd.nspace) (setupMuts s cd.nspace) req cd ra).muts = [] := by
  obtain ⟨f1, f2, f3⟩ :=
    reconcileActive_store_frame (setupStore s cd.nspace) (setupMuts s cd.nspace) req cd ra
  have hsa := congrArg Store.serviceAccounts h
  rw [f1] at hsa
  have hr := congrArg Store.roles h
  rw [f2] at hr
  have hrb := congrArg Store.roleBindings h
  rw [f3] at hrb
  have hsetup : setupStore s cd.nspace = s := setupStore_eq_of_fields _ _ hsa hr hrb
  have hmuts0 : setupMuts s cd.nspace = [] := setupMuts_nil_of_fields _ _ hsa hr hrb
  rw [hsetup] at h ⊢
  rw [reconcileActive_fix s (setupMuts s cd.nspace) req cd ra hcd h, hmuts0]

/-- The deletion path preceded by access provisioning, at a fixpoint store,
issued no mutation at all. -/
theorem syncDeleted_setup_fix (s : Store) (req : ObjectKey) (cd : ClusterDeployment)
    (hcd : alookup req s.clusterDeployments = some cd)
    (hfin : hasFinalizer cd finalizerDeprovision = true)
    (h : (syncDeletedClusterDeployment (setupStore s cd.nspace) (setupMuts s cd.nspace) req cd).store = s) :
    (syncDeletedClusterDeployment (setupStore s cd.nspace) (setupMuts s cd.nspace) req cd).muts = [] := by
  obtain ⟨f1, f2, f3⟩ :=
    syncDeleted_store_frame (setupStore s cd.nspace) (setupMuts s cd.nspace) req cd
  have hsa := congrArg Store.serviceAccounts h
  rw [f1] at hsa
  have hr := congrArg Store.roles h
  rw [f2] at hr
  have hrb := congrArg Store.roleBindings h
  rw [f3] at hrb
  have hsetup : setupStore s cd.nspace = s := setupStore_eq_of_fields _ _ hsa hr hrb
  have hmuts0 : setupMuts s cd.nspace = [] := setupMuts_nil_of_fields _ _ hsa hr hrb
  rw [hsetup] at h ⊢
  rw [syncDeleted_fix s (setupMuts s cd.nspace) req cd hcd hfin h, hmuts0]

/-- A reconcile cycle that leaves the store unchanged issued no mutation:
every mutating call of the cycle visibly changes the store. -/
theorem reconcile_fixpoint_muts (s : Store) (req : ObjectKey) (now : Int)
    (h : (reconcile s req now).store = s) : (reconcile s req now).muts = [] := by
  cases hcd : alookup req s.clusterDeployments with
  | none => simp [reconcile, hcd]
  | some cd =>
    by_cases hdel : cd.deletionTimestamp.isSome = true
    · by_cases hfin : hasFinalizer cd finalizerDeprovision = true
      · simp only [reconcile, hcd, if_pos hdel, if_pos hfin] at h ⊢
        exact syncDeleted_setup_fix s req cd hcd hfin h
      · simp only [reconcile, hcd, if_pos hdel, if_neg hfin] at h ⊢
        exact setupMuts_nil_of_fields s cd.nspace (congrArg Store.serviceAccounts h)
          (congrArg Store.roles h) (congrArg Store.roleBindings h)
    · cases hann : alookup deleteAfterAnnot cd.annotations with
      | none =>
        simp only [reconcile, hcd, if_neg hdel, hann] at h ⊢
        exact reconcileActive_setup_fix s req cd 0 hcd h
      | some d =>
        cases hdur : parseDuration d with
        | none =>
          simp only [reconcile, hcd, if_neg hdel, hann, hdur] at h ⊢
          exact setupMuts_nil_of_fields s cd.nspace (congrArg Store.serviceAccounts h)
            (congrArg Store.roles h) (congrArg Store.roleBindings h)
        | some dur =>
          by_cases hcz : cd.creationTimestamp = 0
          · simp only [reconcile, hcd, if_neg hdel, hann, hdur,
              if_neg (not_not_intro hcz)] at h ⊢
            exact reconcileActive_setup_fix s req cd 0 hcd h
          · by_cases hexp : now > cd.creationTimestamp + (dur : Int)
            · exfalso
              simp only [reconcile, hcd, if_neg hdel, hann, hdur, if_pos hcz,
                if_pos hexp] at h
              have h2 := congrArg (fun st => alookup req st.clusterDeployments) h
              simp only [withoutCD, setupStore, alookup_delKV_self] at h2
              rw [hcd] at h2
              exact Option.noConfusion h2
            · simp only [reconcile, hcd, if_neg hdel, hann, hdur, if_pos hcz,
                if_neg hexp] at h ⊢
              exact reconcileActive_setup_fix s req cd
                (cd.creationTimestamp + (dur : Int) - now + 60 * nsPerSecond) hcd h

/-! ## Mutation classifiers and path-shape lemmas -/

/-- Mutations that touch the resource's own record or its work items, as
opposed to the shared namespace-scoped access-provisioning objects. -/
def mutOnResourceOrJob : Mutation → Bool
  | Mutation.createJob _ => true
  | Mutation.updateClusterDeployment _ _ => true
  | Mutation.deleteClusterDeployment _ => true
  | _ => false

/-- Recognizer for a Delete of a cluster deployment. -/
def isDeleteCD : Mutation → Bool
  | Mutation.deleteClusterDeployment _ => true
  | _ => false

/-- Access provisioning only ever creates provisioning objects. -/
theorem setupMuts_all_provisioning (s : Store) (ns : String) :
    ∀ m ∈ setupMuts s ns, mutOnResourceOrJob m = false := by
  simp only [setupMuts]
  split_ifs <;> simp [mutOnResourceOrJob]

/-- The status update issues either nothing or a single resource update. -/
theorem updateStatus_muts_shape (s : Store) (req : ObjectKey) (cd : ClusterDeployment)
    (job : Option Job) :
    (updateClusterDeploymentStatus s req cd job).2.2 = [] ∨
    ∃ c, (updateClusterDeploymentStatus s req cd job).2.2
      = [Mutation.updateClusterDeployment req c] := by
  unfold updateClusterDeploymentStatus
  split
  · exact Or.inl rfl
  · split
    · exact Or.inl rfl
    · exact Or.inr ⟨_, rfl⟩

/-- The expiry evaluation falls through to the rest of the cycle: either no
expiry policy is present, or it parses and has not yet expired (a zero
creation timestamp never expires). -/
def expiryFallsThrough (cd : ClusterDeployment) (now : Int) : Prop :=
  alookup deleteAfterAnnot cd.annotations = none ∨
  ∃ d dur, alookup deleteAfterAnnot cd.annotations = some d ∧ parseDuration d = some dur ∧
    (cd.creationTimestamp = 0 ∨ ¬ now > cd.creationTimestamp + (dur : Int))

/-- A cycle on a live resource whose expiry evaluation falls through is the
active path preceded by access provisioning, for some remembered delay. -/
theorem reconcile_eq_active (s : Store) (req : ObjectKey) (now : Int)
    (cd : ClusterDeployment)
    (hcd : alookup req s.clusterDeployments = some cd)
    (hdel : cd.deletionTimestamp = none)
    (hexp : expiryFallsThrough cd now) :
    ∃ ra : Int, reconcile s req now
      = reconcileActive (setupStore s cd.nspace) (setupMuts s cd.nspace) req cd ra := by
  have hdel2 : ¬ cd.deletionTimestamp.isSome = true := by rw [hdel]; simp
  rcases hexp with hann | ⟨d, dur, hann, hdur, hor⟩
  · exact ⟨0, by simp only [reconcile, hcd, if_neg hdel2, hann]⟩
  · rcases hor with hcz | hnexp
    · exact ⟨0, by simp only [reconcile, hcd, if_neg hdel2, hann, hdur,
        if_neg (not_not_intro hcz)]⟩
    · by_cases hcz2 : cd.creationTimestamp = 0
      · exact ⟨0, by simp only [reconcile, hcd, if_neg hdel2, hann, hdur,
          if_neg (not_not_intro hcz2)]⟩
      · exact ⟨cd.creationTimestamp + (dur : Int) - now + 60 * nsPerSecond,
          by simp only [reconcile, hcd, if_neg hdel2, hann, hdur,
            if_pos hcz2, if_neg hnexp]⟩

/-- With no error and a nonzero remembered delay, the cycle tail returns a
requeue carrying exactly that delay. -/
theorem finish_result (s : Store) (m : List Mutation) (req : ObjectKey)
    (cd : ClusterDeployment) (job : Option Job) (ra : Int) (hra : ra ≠ 0)
    (hok : (finishReconcile s m req cd job ra).error = none) :
    (finishReconcile s m req cd job ra).result = ⟨true, ra⟩ := by
  rcases hu : updateClusterDeploymentStatus s req cd job with ⟨err, s2, m2⟩
  cases err with
  | some e =>
    simp only [finishReconcile, hu] at hok
    exact Option.noConfusion hok
  | none =>
    simp only [finishReconcile, hu, if_pos hra]

/-- With a zero remembered delay, the cycle tail returns the empty result. -/
theorem finish_result_zero (s : Store) (m : List Mutation) (req : ObjectKey)
    (cd : ClusterDeployment) (job : Option Job) :
    (finishReconcile s m req cd job 0).result = ⟨false, 0⟩ := by
  rcases hu : updateClusterDeploymentStatus s req cd job with ⟨err, s2, m2⟩
  cases err with
  | some e => simp only [finishReconcile, hu]
  | none =>
    have h0 : ¬ ((0 : Int) ≠ 0) := by simp
    simp only [finishReconcile, hu, if_neg h0]

/-- With no error, a nonzero delay and the guard present, the active path
returns a requeue carrying exactly that delay. -/
theorem active_result (s : Store) (m : List Mutation) (req : ObjectKey)
    (cd : ClusterDeployment) (ra : Int)
    (hfin : hasFinalizer cd finalizerDeprovision = true) (hra : ra ≠ 0)
    (hok : (reconcileActive s m req cd ra).error = none) :
    (reconcileActive s m req cd ra).result = ⟨true, ra⟩ := by
  cases hjk : alookup (cd.nspace, installJobName cd.name) s.jobs with
  | none =>
    by_cases hin : cd.status.installed = true
    · simp only [reconcileActive, if_pos hfin, hjk, if_pos hin] at hok ⊢
      exact finish_result _ _ _ _ _ _ hra hok
    · simp only [reconcileActive, if_pos hfin, hjk, if_neg hin] at hok ⊢
      exact finish_result _ _ _ _ _ _ hra hok
  | some existingJob =>
    simp only [reconcileActive, if_pos hfin, hjk] at hok ⊢
    exact finish_result _ _ _ _ _ _ hra hok

/-- With a zero remembered delay, the active path returns the empty result. -/
theorem active_result_zero (s : Store) (m : List Mutation) (req : ObjectKey)
    (cd : ClusterDeployment) :
    (reconcileActive s m req cd 0).result = ⟨false, 0⟩ := by
  by_cases hfin : hasFinalizer cd finalizerDeprovision = true
  · cases hjk : alookup (cd.nspace, installJobName cd.name) s.jobs with
    | none =>
      by_cases hin : cd.status.installed = true
      · simp only [reconcileActive, if_pos hfin, hjk, if_pos hin]
        exact finish_result_zero _ _ _ _ _
      · simp only [reconcileActive, if_pos hfin, hjk, if_neg hin]
        exact finish_result_zero _ _ _ _ _
    | some existingJob =>
      simp only [reconcileActive, if_pos hfin, hjk]
      exact finish_result_zero _ _ _ _ _
  · simp only [reconcileActive, if_neg hfin]

/-- The active path never issues a Delete against the store. -/
theorem active_no_delete (s : Store) (m : List Mutation) (req : ObjectKey)
    (cd : ClusterDeployment) (ra : Int)
    (hm : ∀ mu ∈ m, isDeleteCD mu = false) :
    ∀ mu ∈ (reconcileActive s m req cd ra).muts, isDeleteCD mu = false := by
  have hupd : ∀ (s2 : Store) (m2 : List Mutation) (job : Option Job),
      (∀ mu ∈ m2, isDeleteCD mu = false) →
      ∀ mu ∈ (finishReconcile s2 m2 req cd job ra).muts, isDeleteCD mu = false := by
    intro s2 m2 job hm2 mu hmu
    obtain ⟨-, hmm, -⟩ := finish_store_frame s2 m2 req cd job ra
    rw [hmm] at hmu
    rcases List.mem_append.mp hmu with h1 | h2
    · exact hm2 mu h1
    · rcases updateStatus_muts_shape s2 req cd job with hsh | ⟨c, hsh⟩
      · rw [hsh] at h2
        exact absurd h2 (List.not_mem_nil mu)
      · rw [hsh, List.mem_singleton] at h2
        rw [h2]
        rfl
  by_cases hfin : hasFinalizer cd finalizerDeprovision = true
  · cases hjk : alookup (cd.nspace, installJobName cd.name) s.jobs with
    | none =>
      by_cases hin : cd.status.installed = true
      · simp only [reconcileActive, if_pos hfin, hjk, if_pos hin]
        exact hupd s m (some zeroJob) hm
      · simp only [reconcileActive, if_pos hfin, hjk, if_neg hin]
        refine hupd _ _ (some zeroJob) ?_
        intro mu hmu
        rcases List.mem_append.mp hmu with h1 | h2
        · exact hm mu h1
        · rw [List.mem_singleton] at h2
          rw [h2]
          rfl
    | some existingJob =>
      simp only [reconcileActive, if_pos hfin, hjk]
      exact hupd s m (some existingJob) hm
  · simp only [reconcileActive, if_neg hfin]
    intro mu hmu
    rcases List.mem_append.mp hmu with h1 | h2
    · exact hm mu h1
    · rw [List.mem_singleton] at h2
      rw [h2]
      rfl

/-! ## Lemmas about the condition scan -/

/-- The scan finds exactly the first condition of the requested type. -/
theorem findCondition_some_iff (t : String) (l : List JobCondition) (c : JobCondition) :
    findCondition t l = some c ↔
    ∃ pre post, l = pre ++ c :: post ∧ (∀ c2 ∈ pre, c2.typ ≠ t) ∧ c.typ = t := by
  induction l with
  | nil =>
    simp only [findCondition]
    constructor
    · intro h
      exact Option.noConfusion h
    · rintro ⟨pre, post, hl, -, -⟩
      exact absurd hl.symm (List.append_ne_nil_of_right_ne_nil pre (List.cons_ne_nil c post))
  | cons a l ih =>
    simp only [findCondition]
    by_cases h : a.typ = t
    · rw [if_pos h]
      constructor
      · intro hc
        have ha : a = c := Option.some.inj hc
        subst ha
        exact ⟨[], l, rfl, by simp, h⟩
      · rintro ⟨pre, post, hl, hpre, hct⟩
        cases pre with
        | nil =>
          simp only [List.nil_append, List.cons.injEq] at hl
          rw [hl.1]
        | cons p pre2 =>
          exfalso
          simp only [List.cons_append, List.cons.injEq] at hl
          exact hpre p (List.mem_cons_self p pre2) (hl.1 ▸ h)
    · rw [if_neg h, ih]
      constructor
      · rintro ⟨pre, post, hl, hpre, hct⟩
        refine ⟨a :: pre, post, by rw [hl, List.cons_append], ?_, hct⟩
        intro c2 hc2
        rcases List.mem_cons.mp hc2 with hc2 | hc2
        · rw [hc2]
          exact h
        · exact hpre c2 hc2
      · rintro ⟨pre, post, hl, hpre, hct⟩
        cases pre with
        | nil =>
          exfalso
          simp only [List.nil_append, List.cons.injEq] at hl
          exact h (hl.1 ▸ hct)
        | cons p pre2 =>
          simp only [List.cons_append, List.cons.injEq] at hl
          exact ⟨pre2, post, hl.2, fun c2 hc2 => hpre c2 (List.mem_cons_of_mem p hc2), hct⟩

/-- Dropping all conditions of other types does not change the scan. -/
theorem findCondition_filter (t : String) (l : List JobCondition) :
    findCondition t (l.filter (fun c => c.typ == t)) = findCondition t l := by
  induction l with
  | nil => rfl
  | cons a l ih =>
    by_cases h : a.typ = t
    · simp [List.filter_cons, findCondition, h, ih]
    · simp [List.filter_cons, findCondition, h, ih]

/-! ## Claim C1 -/

/-- An installed resource with a nonempty cluster identifier, deprovision
guard present, and no deletion request. -/
def c1CD : ClusterDeployment :=
  { nspace := "ns1", name := "cluster1", annotations := [],
    finalizers := [finalizerDeprovision], creationTimestamp := 0,
    deletionTimestamp := none, status := { installed := true, clusterUUID := "abc" } }

/-- A provisioned store holding `c1CD` and no install work item. -/
def c1Store : Store :=
  { clusterDeployments := [(("ns1", "cluster1"), c1CD)], jobs := [], configMaps := [],
    serviceAccounts := [("ns1", serviceAccountName)], roles := [("ns1", roleName)],
    roleBindings := [("ns1", roleBindingName)] }

/-- C1: the claim states that once `status.Installed` is true it never
reverts, and in particular that a cycle with the install work item absent
does not persist `Installed = false`.  The code violates this: Reconcile
always passes the zero-value Job (never nil) to the status update, so at
`c1Store` — resource marked installed, install work item absent — the cycle
persists a status with `Installed` reverted to false. -/
theorem installed_reverts_when_install_job_absent :
    c1CD.status.installed = true ∧
    alookup ("ns1", installJobName "cluster1") c1Store.jobs = none ∧
    (alookup ("ns1", "cluster1")
        (reconcile c1Store ("ns1", "cluster1") 0).store.clusterDeployments).map
      (fun cd => cd.status.installed) = some false := by
  exact ⟨rfl, rfl, rfl⟩

/-! ## Claim C2 -/

/-- C2: for a resource with no deletion request, when the backing store did
not change between two invocations (the store after the first cycle equals
the store the first cycle read), the second invocation yields the same
result and the same stored status, and issues zero create, update or delete
calls against the store. -/
theorem reconcile_idempotent_on_unchanged_store (s : Store) (req : ObjectKey) (now : Int)
    (cd : ClusterDeployment)
    (hcd : alookup req s.clusterDeployments = some cd)
    (hdel : cd.deletionTimestamp = none)
    (hfix : (reconcile s req now).store = s) :
    reconcile (reconcile s req now).store req now = reconcile s req now ∧
    alookup req (reconcile (reconcile s req now).store req now).store.clusterDeployments
      = alookup req (reconcile s req now).store.clusterDeployments ∧
    (reconcile (reconcile s req now).store req now).muts = [] := by
  have h1 : reconcile (reconcile s req now).store req now = reconcile s req now := by
    rw [hfix]
  refine ⟨h1, by rw [h1], ?_⟩
  rw [h1]
  exact reconcile_fixpoint_muts s req now hfix

/-- A steady-state resource: installed, identifier set, guard present. -/
def c2CD : ClusterDeployment :=
  { nspace := "ns2", name := "cluster2", annotations := [],
    finalizers := [finalizerDeprovision], creationTimestamp := 0,
    deletionTimestamp := none, status := { installed := true, clusterUUID := "uuid-2" } }

/-- The completed install work item of `c2CD`. -/
def c2Job : Job :=
  { nspace := "ns2", name := installJobName "cluster2",
    conditions := [{ typ := jobComplete, status := ConditionStatus.conditionTrue }],
    ownerName := some "cluster2" }

/-- A provisioned steady-state store for `c2CD`. -/
def c2Store : Store :=
  { clusterDeployments := [(("ns2", "cluster2"), c2CD)],
    jobs := [(("ns2", installJobName "cluster2"), c2Job)], configMaps := [],
    serviceAccounts := [("ns2", serviceAccountName)], roles := [("ns2", roleName)],
    roleBindings := [("ns2", roleBindingName)] }

/-- Witness for C2 at the concrete steady-state store. -/
theorem reconcile_idempotent_on_unchanged_store_witness :
    (reconcile c2Store ("ns2", "cluster2") 0).store = c2Store ∧
    reconcile (reconcile c2Store ("ns2", "cluster2") 0).store ("ns2", "cluster2") 0
      = reconcile c2Store ("ns2", "cluster2") 0 ∧
    (reconcile (reconcile c2Store ("ns2", "cluster2") 0).store ("ns2", "cluster2") 0).muts
      = [] := by
  have hfix : (reconcile c2Store ("ns2", "cluster2") 0).store = c2Store := by decide
  have h := reconcile_idempotent_on_unchanged_store c2Store ("ns2", "cluster2") 0 c2CD
    (by decide) (by decide) hfix
  exact ⟨hfix, h.1, h.2.2⟩

/-! ## Claim C3 -/

/-- C3: for a resource with the deprovision guard and a deletion request,
the cycle removes the guard from the stored resource exactly when the
uninstall work item is found under its deterministic name with condition
Complete true; in every other case the guard remains in the stored
resource's finalizer set. -/
theorem finalizer_removed_iff_uninstall_complete (s : Store) (req : ObjectKey) (now : Int)
    (cd : ClusterDeployment)
    (hcd : alookup req s.clusterDeployments = some cd)
    (hdel : cd.deletionTimestamp.isSome = true)
    (hfin : hasFinalizer cd finalizerDeprovision = true) :
    ∃ cd2, alookup req (reconcile s req now).store.clusterDeployments = some cd2 ∧
      (hasFinalizer cd2 finalizerDeprovision = false ↔
        ∃ j, alookup (cd.nspace, uninstallJobName cd.name) s.jobs = some j ∧
          isSuccessful j = true) := by
  cases hjk : alookup (cd.nspace, uninstallJobName cd.name) s.jobs with
  | none =>
    simp only [reconcile, hcd, if_pos hdel, if_pos hfin, syncDeletedClusterDeployment,
      setupStore_jobs, hjk]
    refine ⟨cd, ?_, ?_⟩
    · simp only [withJob]
      rw [setupStore_clusterDeployments]
      exact hcd
    · constructor
      · intro hf
        rw [hfin] at hf
        exact Bool.noConfusion hf
      · rintro ⟨j, hj, -⟩
        exact Option.noConfusion hj
  | some j =>
    by_cases hsucc : isSuccessful j = true
    · simp only [reconcile, hcd, if_pos hdel, if_pos hfin, syncDeletedClusterDeployment,
        setupStore_jobs, hjk, if_pos hsucc]
      refine ⟨deleteFinalizerCD cd finalizerDeprovision, ?_, ?_⟩
      · simp only [withCD, alookup_setKV_self]
      · exact iff_of_true (hasFinalizer_deleteFinalizerCD cd finalizerDeprovision)
          ⟨j, rfl, hsucc⟩
    · simp only [reconcile, hcd, if_pos hdel, if_pos hfin, syncDeletedClusterDeployment,
        setupStore_jobs, hjk, if_neg hsucc]
      refine ⟨cd, ?_, ?_⟩
      · rw [setupStore_clusterDeployments]
        exact hcd
      · constructor
        · intro hf
          rw [hfin] at hf
          exact Bool.noConfusion hf
        · rintro ⟨j2, hj2, hs2⟩
          rw [← Option.some.inj hj2] at hs2
          exact absurd hs2 hsucc

/-- A resource being deleted: guard present, deletion requested. -/
def c3CD : ClusterDeployment :=
  { nspace := "ns3", name := "cluster3", annotations := [],
    finalizers := [finalizerDeprovision], creationTimestamp := 0,
    deletionTimestamp := some 7, status := { installed := true, clusterUUID := "u3" } }

/-- The completed uninstall work item of `c3CD`. -/
def c3Job : Job :=
  { nspace := "ns3", name := uninstallJobName "cluster3",
    conditions := [{ typ := jobComplete, status := ConditionStatus.conditionTrue }],
    ownerName := some "cluster3" }

/-- A provisioned store holding `c3CD` and its finished uninstall item. -/
def c3Store : Store :=
  { clusterDeployments := [(("ns3", "cluster3"), c3CD)],
    jobs := [(("ns3", uninstallJobName "cluster3"), c3Job)], configMaps := [],
    serviceAccounts := [("ns3", serviceAccountName)], roles := [("ns3", roleName)],
    roleBindings := [("ns3", roleBindingName)] }

/-- Witness for C3 at a concrete deleting resource. -/
theorem finalizer_removed_iff_uninstall_complete_witness :
    ∃ cd2, alookup ("ns3", "cluster3")
        (reconcile c3Store ("ns3", "cluster3") 0).store.clusterDeployments = some cd2 ∧
      (hasFinalizer cd2 finalizerDeprovision = false ↔
        ∃ j, alookup (c3CD.nspace, uninstallJobName c3CD.name) c3Store.jobs = some j ∧
          isSuccessful j = true) :=
  finalizer_removed_iff_uninstall_complete c3Store ("ns3", "cluster3") 0 c3CD
    (by decide) (by decide) (by decide)

/-! ## Claim C4 -/

/-- A fresh resource without the deletion guard, in a namespace where the
access-provisioning objects do not yet exist. -/
def c4CD : ClusterDeployment :=
  { nspace := "ns4", name := "cluster4", annotations := [], finalizers := [],
    creationTimestamp := 0, deletionTimestamp := none,
    status := { installed := false, clusterUUID := "" } }

/-- An unprovisioned store holding `c4CD`. -/
def c4Store : Store :=
  { clusterDeployments := [(("ns4", "cluster4"), c4CD)], jobs := [], configMaps := [],
    serviceAccounts := [], roles := [], roleBindings := [] }

/-- Counterexample to C4 as stated: in an unprovisioned namespace the
guard-adding cycle performs four store mutations (three access-provisioning
creations plus the guard update), not exactly one. -/
theorem guard_add_cycle_not_single_mutation :
    ¬ ((reconcile c4Store ("ns4", "cluster4") 0).muts
        = [Mutation.updateClusterDeployment ("ns4", "cluster4")
            (addFinalizerCD c4CD finalizerDeprovision)]) := by
  decide

/-- C4 (amended): for a resource with no deletion request, a fall-through
expiry evaluation, and the deletion guard absent, provided its namespace's
access-provisioning objects already exist, the cycle performs exactly one
store mutation — the update adding the guard — and terminates immediately
with no error, no requeue, no work item creation, and no status persist. -/
theorem guard_add_single_mutation_when_provisioned (s : Store) (req : ObjectKey)
    (now : Int) (cd : ClusterDeployment)
    (hcd : alookup req s.clusterDeployments = some cd)
    (hdel : cd.deletionTimestamp = none)
    (hfin : hasFinalizer cd finalizerDeprovision = false)
    (hsa : memD (cd.nspace, serviceAccountName) s.serviceAccounts = true)
    (hrole : memD (cd.nspace, roleName) s.roles = true)
    (hrb : memD (cd.nspace, roleBindingName) s.roleBindings = true)
    (hexp : expiryFallsThrough cd now) :
    reconcile s req now =
      { result := ⟨false, 0⟩, error := none,
        store := withCD s req (addFinalizerCD cd finalizerDeprovision),
        muts := [Mutation.updateClusterDeployment req
          (addFinalizerCD cd finalizerDeprovision)] } := by
  obtain ⟨ra, heq⟩ := reconcile_eq_active s req now cd hcd hdel hexp
  have hfin2 : ¬ hasFinalizer cd finalizerDeprovision = true := by
    rw [hfin]
    exact Bool.false_ne_true
  rw [heq, setupStore_eq_of_provisioned s cd.nspace hsa hrole hrb,
    setupMuts_nil_of_provisioned s cd.nspace hsa hrole hrb]
  simp only [reconcileActive, if_neg hfin2, List.nil_append]

/-- A fresh resource without the guard in a provisioned namespace. -/
def c4wCD : ClusterDeployment :=
  { nspace := "nsw4", name := "clusterw4", annotations := [], finalizers := [],
    creationTimestamp := 0, deletionTimestamp := none,
    status := { installed := false, clusterUUID := "" } }

/-- A provisioned store holding `c4wCD`. -/
def c4wStore : Store :=
  { clusterDeployments := [(("nsw4", "clusterw4"), c4wCD)], jobs := [], configMaps := [],
    serviceAccounts := [("nsw4", serviceAccountName)], roles := [("nsw4", roleName)],
    roleBindings := [("nsw4", roleBindingName)] }

/-- Witness for the amended C4 at a concrete provisioned store. -/
theorem guard_add_single_mutation_when_provisioned_witness :
    reconcile c4wStore ("nsw4", "clusterw4") 0 =
      { result := ⟨false, 0⟩, error := none,
        store := withCD c4wStore ("nsw4", "clusterw4")
          (addFinalizerCD c4wCD finalizerDeprovision),
        muts := [Mutation.updateClusterDeployment ("nsw4", "clusterw4")
          (addFinalizerCD c4wCD finalizerDeprovision)] } :=
  guard_add_single_mutation_when_provisioned c4wStore ("nsw4", "clusterw4") 0 c4wCD
    (by decide) (by decide) (by decide) (by decide) (by decide) (by decide) (Or.inl rfl)

/-! ## Claim C5 -/

/-- An expired resource on the active path: guard present, no deletion
request, delete-after policy of one hour, created at time 1. -/
def c5CD : ClusterDeployment :=
  { nspace := "ns5", name := "cluster5",
    annotations := [(deleteAfterAnnot, "1h")], finalizers := [finalizerDeprovision],
    creationTimestamp := 1, deletionTimestamp := none,
    status := { installed := false, clusterUUID := "" } }

/-- A provisioned store holding `c5CD` and no install work item. -/
def c5Store : Store :=
  { clusterDeployments := [(("ns5", "cluster5"), c5CD)], jobs := [], configMaps := [],
    serviceAccounts := [("ns5", serviceAccountName)], roles := [("ns5", roleName)],
    roleBindings := [("ns5", roleBindingName)] }

/-- Counterexample to C5 as stated: at `c5Store` two hours after creation the
resource is on the active path (guard present, no deletion request), the
install work item lookup is not-found and the resource is not installed, yet
the cycle creates no install work item — it issues a delete instead, because
the expiry policy fires first. -/
theorem install_job_iff_fails_when_expired :
    ¬ ((Mutation.createJob ("ns5", installJobName "cluster5")
          ∈ (reconcile c5Store ("ns5", "cluster5") 7200000000001).muts) ↔
        (alookup ("ns5", installJobName "cluster5") c5Store.jobs = none ∧
          c5CD.status.installed = false)) := by
  decide

/-- C5 (amended): for a resource on the active path (guard present, no
deletion request) whose expiry evaluation falls through, the cycle creates
the install work item if and only if the lookup under its deterministic name
is not-found and the resource is not marked installed; and whenever the
lookup finds an existing item, the store's work items are left unchanged. -/
theorem install_job_created_iff_absent_and_not_installed (s : Store) (req : ObjectKey)
    (now : Int) (cd : ClusterDeployment)
    (hcd : alookup req s.clusterDeployments = some cd)
    (hdel : cd.deletionTimestamp = none)
    (hfin : hasFinalizer cd finalizerDeprovision = true)
    (hexp : expiryFallsThrough cd now) :
    ((Mutation.createJob (cd.nspace, installJobName cd.name)
        ∈ (reconcile s req now).muts) ↔
      (alookup (cd.nspace, installJobName cd.name) s.jobs = none ∧
        cd.status.installed = false)) ∧
    (∀ j, alookup (cd.nspace, installJobName cd.name) s.jobs = some j →
      (reconcile s req now).store.jobs = s.jobs) := by
  obtain ⟨ra, heq⟩ := reconcile_eq_active s req now cd hcd hdel hexp
  rw [heq]
  cases hjk : alookup (cd.nspace, installJobName cd.name) s.jobs with
  | none =>
    by_cases hin : cd.status.installed = true
    · simp only [reconcileActive, if_pos hfin, setupStore_jobs, hjk, if_pos hin]
      constructor
      · constructor
        · intro hmem
          exfalso
          obtain ⟨-, hm, -⟩ := finish_store_frame (setupStore s cd.nspace)
            (setupMuts s cd.nspace) req cd (some zeroJob) ra
          rw [hm] at hmem
          rcases List.mem_append.mp hmem with h1 | h2
          · have := setupMuts_all_provisioning s cd.nspace _ h1
            simp [mutOnResourceOrJob] at this
          · rcases updateStatus_muts_shape (setupStore s cd.nspace) req cd (some zeroJob)
              with hsh | ⟨c, hsh⟩
            · rw [hsh] at h2
              exact absurd h2 (List.not_mem_nil _)
            · rw [hsh, List.mem_singleton] at h2
              exact Mutation.noConfusion h2
        · rintro ⟨-, hinst⟩
          rw [hin] at hinst
          exact Bool.noConfusion hinst
      · intro j hj
        exact Option.noConfusion hj
    · simp only [reconcileActive, if_pos hfin, setupStore_jobs, hjk, if_neg hin]
      constructor
      · refine iff_of_true ?_ ⟨trivial, Bool.eq_false_iff.mpr hin⟩
        obtain ⟨-, hm, -⟩ := finish_store_frame
          (withJob (setupStore s cd.nspace) (cd.nspace, installJobName cd.name)
            (setControllerReference cd (generateInstallerJob cd)))
          (setupMuts s cd.nspace ++ [Mutation.createJob (cd.nspace, installJobName cd.name)])
          req cd (some zeroJob) ra
        rw [hm]
        simp [List.mem_append]
      · intro j hj
        exact Option.noConfusion hj
  | some existingJob =>
    simp only [reconcileActive, if_pos hfin, setupStore_jobs, hjk]
    constructor
    · refine iff_of_false ?_ ?_
      · intro hmem
        obtain ⟨-, hm, -⟩ := finish_store_frame (setupStore s cd.nspace)
          (setupMuts s cd.nspace) req cd (some existingJob) ra
        rw [hm] at hmem
        rcases List.mem_append.mp hmem with h1 | h2
        · have := setupMuts_all_provisioning s cd.nspace _ h1
          simp [mutOnResourceOrJob] at this
        · rcases updateStatus_muts_shape (setupStore s cd.nspace) req cd (some existingJob)
            with hsh | ⟨c, hsh⟩
          · rw [hsh] at h2
            exact absurd h2 (List.not_mem_nil _)
          · rw [hsh, List.mem_singleton] at h2
            exact Mutation.noConfusion h2
      · rintro ⟨h1, -⟩
        exact Option.noConfusion h1
    · intro j hj
      obtain ⟨hs, -, -⟩ := finish_store_frame (setupStore s cd.nspace)
        (setupMuts s cd.nspace) req cd (some existingJob) ra
      rw [hs]
      exact (updateStatus_store_frame (setupStore s cd.nspace) req cd (some existingJob)).1

/-- A live resource with the guard, not installed, no work item yet. -/
def c5wCD : ClusterDeployment :=
  { nspace := "nsw5", name := "clusterw5", annotations := [],
    finalizers := [finalizerDeprovision], creationTimestamp := 0,
    deletionTimestamp := none, status := { installed := false, clusterUUID := "" } }

/-- A provisioned store holding `c5wCD` and no install work item. -/
def c5wStore : Store :=
  { clusterDeployments := [(("nsw5", "clusterw5"), c5wCD)], jobs := [], configMaps := [],
    serviceAccounts := [("nsw5", serviceAccountName)], roles := [("nsw5", roleName)],
    roleBindings := [("nsw5", roleBindingName)] }

/-- Witness for the amended C5 at a concrete store. -/
theorem install_job_created_iff_absent_and_not_installed_witness :
    ((Mutation.createJob (c5wCD.nspace, installJobName c5wCD.name)
        ∈ (reconcile c5wStore ("nsw5", "clusterw5") 0).muts) ↔
      (alookup (c5wCD.nspace, installJobName c5wCD.name) c5wStore.jobs = none ∧
        c5wCD.status.installed = false)) ∧
    (∀ j, alookup (c5wCD.nspace, installJobName c5wCD.name) c5wStore.jobs = some j →
      (reconcile c5wStore ("nsw5", "clusterw5") 0).store.jobs = c5wStore.jobs) :=
  install_job_created_iff_absent_and_not_installed c5wStore ("nsw5", "clusterw5") 0 c5wCD
    (by decide) (by decide) (by decide) (Or.inl rfl)

/-! ## Claim C6 -/

/-- A work item whose condition list holds two Complete entries, the first
false and the second true. -/
def c6Job : Job :=
  { nspace := "ns6", name := "job6",
    conditions := [{ typ := jobComplete, status := ConditionStatus.conditionFalse },
                   { typ := jobComplete, status := ConditionStatus.conditionTrue }],
    ownerName := none }

/-- Counterexample to C6 as stated: `c6Job`'s condition list contains a
condition of type Complete with value true, yet the success predicate
returns false, because the scan stops at the first Complete entry. -/
theorem success_predicate_not_membership :
    ¬ (isSuccessful c6Job = true ↔
        ∃ c ∈ c6Job.conditions,
          c.typ = jobComplete ∧ c.status = ConditionStatus.conditionTrue) := by
  decide

/-- C6 (amended): the success predicate returns true if and only if the
first condition of type Complete in the item's condition list has value
true; conditions of any other type — in particular Failed — have no effect,
and a missing Complete condition yields false. -/
theorem success_iff_first_complete_true (job : Job) :
    (isSuccessful job = true ↔
      ∃ pre c post, job.conditions = pre ++ c :: post ∧
        (∀ c2 ∈ pre, c2.typ ≠ jobComplete) ∧ c.typ = jobComplete ∧
        c.status = ConditionStatus.conditionTrue) ∧
    isSuccessful job =
      isSuccessful { job with
        conditions := job.conditions.filter (fun c => c.typ == jobComplete) } := by
  constructor
  · have hbeq : (isSuccessful job = true) ↔
        getJobConditionStatus job jobComplete = ConditionStatus.conditionTrue := by
      simp [isSuccessful]
    rw [hbeq]
    unfold getJobConditionStatus
    cases hfc : findCondition jobComplete job.conditions with
    | none =>
      constructor
      · intro hfalse
        exact ConditionStatus.noConfusion hfalse
      · rintro ⟨pre, c, post, hl, hpre, hct, hcs⟩
        have hsome : findCondition jobComplete job.conditions = some c :=
          (findCondition_some_iff _ _ _).mpr ⟨pre, post, hl, hpre, hct⟩
        rw [hfc] at hsome
        exact Option.noConfusion hsome
    | some c =>
      obtain ⟨pre, post, hl, hpre, hct⟩ := (findCondition_some_iff _ _ _).mp hfc
      constructor
      · intro hcs
        exact ⟨pre, c, post, hl, hpre, hct, hcs⟩
      · rintro ⟨pre2, c2, post2, hl2, hpre2, hct2, hcs2⟩
        have hsome : findCondition jobComplete job.conditions = some c2 :=
          (findCondition_some_iff _ _ _).mpr ⟨pre2, post2, hl2, hpre2, hct2⟩
        rw [hfc] at hsome
        rw [← Option.some.inj hsome] at hcs2
        exact hcs2
  · simp only [isSuccessful, getJobConditionStatus]
    rw [findCondition_filter jobComplete job.conditions]

/-! ## Claim C7 -/

/-- C7: for a resource that reaches the status update with a found and
successful install work item, an installed computed status and an unset
cluster identifier, any metadata failure — artifact absent, payload not
decodable, or the nested aws → identifier → tectonicClusterID path missing
or not a string — aborts the cycle with that error and persists nothing:
the stored resources and work items are exactly those the cycle read. -/
theorem metadata_error_aborts_status_update (s : Store) (req : ObjectKey) (now : Int)
    (cd : ClusterDeployment) (j : Job) (e : RError)
    (hcd : alookup req s.clusterDeployments = some cd)
    (hdel : cd.deletionTimestamp = none)
    (hfin : hasFinalizer cd finalizerDeprovision = true)
    (hexp : expiryFallsThrough cd now)
    (hjob : alookup (cd.nspace, installJobName cd.name) s.jobs = some j)
    (hsucc : isSuccessful j = true)
    (huuid : cd.status.clusterUUID = "")
    (hbad : lookupClusterUUID s.configMaps cd = Except.error e) :
    (reconcile s req now).error = some e ∧
    (reconcile s req now).store.clusterDeployments = s.clusterDeployments ∧
    (reconcile s req now).store.jobs = s.jobs := by
  obtain ⟨ra, heq⟩ := reconcile_eq_active s req now cd hcd hdel hexp
  rw [heq]
  simp only [reconcileActive, if_pos hfin, setupStore_jobs, hjob]
  have hcn : computeNewStatus (setupStore s cd.nspace).configMaps cd (some j)
      = Except.error e := by
    simp only [computeNewStatus, setupStore_configMaps]
    simp [hsucc, huuid, hbad]
  have hupd : updateClusterDeploymentStatus (setupStore s cd.nspace) req cd (some j)
      = (some e, setupStore s cd.nspace, []) := by
    simp [updateClusterDeploymentStatus, hcn]
  simp only [finishReconcile, hupd]
  refine ⟨?_, ?_, ?_⟩ <;> trivial

/-- An installed-in-progress resource: successful install work item present,
identifier unset, metadata artifact absent from the store. -/
def c7CD : ClusterDeployment :=
  { nspace := "ns7", name := "cluster7", annotations := [],
    finalizers := [finalizerDeprovision], creationTimestamp := 0,
    deletionTimestamp := none, status := { installed := false, clusterUUID := "" } }

/-- The completed install work item of `c7CD`. -/
def c7Job : Job :=
  { nspace := "ns7", name := installJobName "cluster7",
    conditions := [{ typ := jobComplete, status := ConditionStatus.conditionTrue }],
    ownerName := some "cluster7" }

/-- A provisioned store with the finished install item but no metadata
artifact. -/
def c7Store : Store :=
  { clusterDeployments := [(("ns7", "cluster7"), c7CD)],
    jobs := [(("ns7", installJobName "cluster7"), c7Job)], configMaps := [],
    serviceAccounts := [("ns7", serviceAccountName)], roles := [("ns7", roleName)],
    roleBindings := [("ns7", roleBindingName)] }

/-- Witness for C7: the metadata artifact is absent, the cycle aborts with
the lookup error and persists nothing. -/
theorem metadata_error_aborts_status_update_witness :
    (reconcile c7Store ("ns7", "cluster7") 0).error = some RError.metadataLookupError ∧
    (reconcile c7Store ("ns7", "cluster7") 0).store.clusterDeployments
      = c7Store.clusterDeployments ∧
    (reconcile c7Store ("ns7", "cluster7") 0).store.jobs = c7Store.jobs :=
  metadata_error_aborts_status_update c7Store ("ns7", "cluster7") 0 c7CD c7Job
    RError.metadataLookupError (by decide) (by decide) (by decide) (Or.inl rfl)
    (by decide) (by decide) (by decide) rfl

/-! ## Claim C8 -/

/-- C8: for a resource with no deletion request whose delete-after policy
has expired (nonzero creation timestamp, now past creation + duration), the
cycle issues a delete of the resource against the store, reports success
with no requeue, and performs no other mutation against the resource or its
work items — no guard change, no work item creation, no status persist. -/
theorem expired_resource_deleted (s : Store) (req : ObjectKey) (now : Int)
    (cd : ClusterDeployment) (d : String) (dur : Nat)
    (hcd : alookup req s.clusterDeployments = some cd)
    (hdel : cd.deletionTimestamp = none)
    (hann : alookup deleteAfterAnnot cd.annotations = some d)
    (hdur : parseDuration d = some dur)
    (hcz : cd.creationTimestamp ≠ 0)
    (hexp : now > cd.creationTimestamp + (dur : Int)) :
    (reconcile s req now).error = none ∧
    (reconcile s req now).result = ⟨false, 0⟩ ∧
    (reconcile s req now).muts.filter mutOnResourceOrJob
      = [Mutation.deleteClusterDeployment req] ∧
    (reconcile s req now).store.jobs = s.jobs ∧
    alookup req (reconcile s req now).store.clusterDeployments = none := by
  have hdel2 : ¬ cd.deletionTimestamp.isSome = true := by
    rw [hdel]
    simp
  simp only [reconcile, hcd, if_neg hdel2, hann, hdur, if_pos hcz, if_pos hexp]
  refine ⟨by trivial, by trivial, ?_, by trivial, ?_⟩
  · rw [List.filter_append]
    rw [List.filter_eq_nil_iff.mpr (fun m hm => by
      rw [setupMuts_all_provisioning s cd.nspace m hm]
      simp)]
    simp [mutOnResourceOrJob]
  · simp only [withoutCD, setupStore_clusterDeployments, alookup_delKV_self]

/-- An expired resource: one-hour policy, created at 1, guard present. -/
def c8CD : ClusterDeployment :=
  { nspace := "ns8", name := "cluster8",
    annotations := [(deleteAfterAnnot, "1h")], finalizers := [finalizerDeprovision],
    creationTimestamp := 1, deletionTimestamp := none,
    status := { installed := false, clusterUUID := "" } }

/-- A provisioned store holding `c8CD`. -/
def c8Store : Store :=
  { clusterDeployments := [(("ns8", "cluster8"), c8CD)], jobs := [], configMaps := [],
    serviceAccounts := [("ns8", serviceAccountName)], roles := [("ns8", roleName)],
    roleBindings := [("ns8", roleBindingName)] }

/-- Witness for C8 two hours after creation. -/
theorem expired_resource_deleted_witness :
    (reconcile c8Store ("ns8", "cluster8") 7200000000001).error = none ∧
    (reconcile c8Store ("ns8", "cluster8") 7200000000001).result = ⟨false, 0⟩ ∧
    (reconcile c8Store ("ns8", "cluster8") 7200000000001).muts.filter mutOnResourceOrJob
      = [Mutation.deleteClusterDeployment ("ns8", "cluster8")] ∧
    (reconcile c8Store ("ns8", "cluster8") 7200000000001).store.jobs = c8Store.jobs ∧
    alookup ("ns8", "cluster8")
      (reconcile c8Store ("ns8", "cluster8") 7200000000001).store.clusterDeployments
      = none :=
  expired_resource_deleted c8Store ("ns8", "cluster8") 7200000000001 c8CD "1h" 3600000000000
    (by decide) (by decide) (by decide) (by decide) (by decide) (by decide)

/-! ## Claim C9 -/

/-- A resource with a 48-hour policy, created at 1, without the guard. -/
def c9CD : ClusterDeployment :=
  { nspace := "ns9", name := "cluster9",
    annotations := [(deleteAfterAnnot, "48h")], finalizers := [],
    creationTimestamp := 1, deletionTimestamp := none,
    status := { installed := false, clusterUUID := "" } }

/-- A provisioned store holding `c9CD`. -/
def c9Store : Store :=
  { clusterDeployments := [(("ns9", "cluster9"), c9CD)], jobs := [], configMaps := [],
    serviceAccounts := [("ns9", serviceAccountName)], roles := [("ns9", roleName)],
    roleBindings := [("ns9", roleBindingName)] }

/-- Counterexample to C9 as stated: `c9CD` has no deletion request and a
48-hour policy that has not yet expired at time 5, yet the cycle's result
does not carry the delay (expiry − now) + 60s — the guard-adding early
return drops the remembered delay and returns the empty result. -/
theorem requeue_delay_dropped_on_guard_add :
    c9CD.deletionTimestamp = none ∧
    parseDuration "48h" = some 172800000000000 ∧
    ¬ (5 : Int) > c9CD.creationTimestamp + (172800000000000 : Int) ∧
    (reconcile c9Store ("ns9", "cluster9") 5).result.requeueAfter
      ≠ c9CD.creationTimestamp + (172800000000000 : Int) - 5 + 60 * nsPerSecond := by
  decide

/-- C9 (amended): for a resource with no deletion request whose policy
parses and has not yet expired (nonzero creation timestamp), provided the
deletion guard is already present and the cycle completes without error, the
result carries a requeue delay of exactly (expiry − now) + 60 seconds.
Cycles that terminate early — adding the guard, or aborting on an error —
return the empty result instead. -/
theorem requeue_delay_when_cycle_completes (s : Store) (req : ObjectKey) (now : Int)
    (cd : ClusterDeployment) (d : String) (dur : Nat)
    (hcd : alookup req s.clusterDeployments = some cd)
    (hdel : cd.deletionTimestamp = none)
    (hann : alookup deleteAfterAnnot cd.annotations = some d)
    (hdur : parseDuration d = some dur)
    (hcz : cd.creationTimestamp ≠ 0)
    (hnexp : ¬ now > cd.creationTimestamp + (dur : Int))
    (hfin : hasFinalizer cd finalizerDeprovision = true)
    (hok : (reconcile s req now).error = none) :
    (reconcile s req now).result
      = ⟨true, cd.creationTimestamp + (dur : Int) - now + 60 * nsPerSecond⟩ := by
  have hdel2 : ¬ cd.deletionTimestamp.isSome = true := by
    rw [hdel]
    simp
  have hra : cd.creationTimestamp + (dur : Int) - now + 60 * nsPerSecond ≠ 0 := by
    have h1 : now ≤ cd.creationTimestamp + (dur : Int) := not_lt.mp hnexp
    simp only [nsPerSecond]
    omega
  simp only [reconcile, hcd, if_neg hdel2, hann, hdur, if_pos hcz, if_neg hnexp] at hok ⊢
  exact active_result _ _ _ _ _ hfin hra hok

/-- A live resource with the guard and a one-hour policy, created at 1. -/
def c9wCD : ClusterDeployment :=
  { nspace := "nsw9", name := "clusterw9",
    annotations := [(deleteAfterAnnot, "1h")], finalizers := [finalizerDeprovision],
    creationTimestamp := 1, deletionTimestamp := none,
    status := { installed := false, clusterUUID := "" } }

/-- A provisioned store holding `c9wCD`. -/
def c9wStore : Store :=
  { clusterDeployments := [(("nsw9", "clusterw9"), c9wCD)], jobs := [], configMaps := [],
    serviceAccounts := [("nsw9", serviceAccountName)], roles := [("nsw9", roleName)],
    roleBindings := [("nsw9", roleBindingName)] }

/-- Witness for the amended C9 at time 5 with a one-hour policy. -/
theorem requeue_delay_when_cycle_completes_witness :
    (reconcile c9wStore ("nsw9", "clusterw9") 5).result
      = ⟨true, c9wCD.creationTimestamp + ((3600000000000 : Nat) : Int) - 5
          + 60 * nsPerSecond⟩ :=
  requeue_delay_when_cycle_completes c9wStore ("nsw9", "clusterw9") 5 c9wCD "1h"
    3600000000000 (by decide) (by decide) (by decide) (by decide) (by decide)
    (by decide) (by decide) (by decide)

/-! ## Claim C10 -/

/-- C10: for a resource with no deletion request whose creation timestamp is
the zero value, a present and parseable expiry annotation has no effect: the
cycle issues no delete against the store and its result carries no requeue
and no retry-after delay. -/
theorem zero_creation_timestamp_disables_expiry (s : Store) (req : ObjectKey)
    (now : Int) (cd : ClusterDeployment) (d : String) (dur : Nat)
    (hcd : alookup req s.clusterDeployments = some cd)
    (hdel : cd.deletionTimestamp = none)
    (hcz : cd.creationTimestamp = 0)
    (hann : alookup deleteAfterAnnot cd.annotations = some d)
    (hdur : parseDuration d = some dur) :
    (∀ k, Mutation.deleteClusterDeployment k ∉ (reconcile s req now).muts) ∧
    (reconcile s req now).result = ⟨false, 0⟩ := by
  have hdel2 : ¬ cd.deletionTimestamp.isSome = true := by
    rw [hdel]
    simp
  simp only [reconcile, hcd, if_neg hdel2, hann, hdur, if_neg (not_not_intro hcz)]
  constructor
  · have hm0 : ∀ mu ∈ setupMuts s cd.nspace, isDeleteCD mu = false := by
      intro mu hmu
      have h2 := setupMuts_all_provisioning s cd.nspace mu hmu
      cases mu <;> simp_all [mutOnResourceOrJob, isDeleteCD]
    intro k hk
    have hfalse := active_no_delete (setupStore s cd.nspace) (setupMuts s cd.nspace)
      req cd 0 hm0 _ hk
    simp [isDeleteCD] at hfalse
  · exact active_result_zero _ _ _ _

/-- A resource with a parseable policy but the zero creation timestamp. -/
def c10CD : ClusterDeployment :=
  { nspace := "ns10", name := "cluster10",
    annotations := [(deleteAfterAnnot, "1h")], finalizers := [finalizerDeprovision],
    creationTimestamp := 0, deletionTimestamp := none,
    status := { installed := false, clusterUUID := "" } }

/-- A provisioned store holding `c10CD`. -/
def c10Store : Store :=
  { clusterDeployments := [(("ns10", "cluster10"), c10CD)], jobs := [], configMaps := [],
    serviceAccounts := [("ns10", serviceAccountName)], roles := [("ns10", roleName)],
    roleBindings := [("ns10", roleBindingName)] }

/-- Witness for C10 far past where the policy would have expired. -/
theorem zero_creation_timestamp_disables_expiry_witness :
    (∀ k, Mutation.deleteClusterDeployment k
      ∉ (reconcile c10Store ("ns10", "cluster10") 9999999999999).muts) ∧
    (reconcile c10Store ("ns10", "cluster10") 9999999999999).result = ⟨false, 0⟩ :=
  zero_creation_timestamp_disables_expiry c10Store ("ns10", "cluster10") 9999999999999
    c10CD "1h" 3600000000000 (by decide) (by decide) (by decide) (by decide) (by decide)

end Hive
